import Mathlib

/-!
Shallow embedding of `timeoutthreadpoolexecutor.py` (TimeoutThreadPoolExecutor),
a bounded worker-thread pool with per-worker idle TTL.

Machine conventions:
* time values (`time.monotonic()` readings, TTLs, deadlines) are `Nat`;
* a Python `concurrent.futures.Future` is the inductive `FutureState`;
* the result of invoking a task callable is an `Except FError Int`
  (normal return of a value, or a raised fault);
* the executor's `_threads` set is a `List WThread`; thread identity is `tid`;
* the process-wide registry `_threads_queues` is modelled (for a single pool)
  as the list of registered worker tids, and the module-global `_shutdown`
  flag as `GlobalState.shuttingDown`;
* lock-protected blocks are modelled as single atomic state transformations;
* fallible Python operations that raise `InvalidStateError` return `Option`.
-/

namespace TTPE

/-- Faults that can settle a future as failed: either a fault raised by the
task itself, or the `BrokenThreadPool` error used when a worker initializer
failed. -/
inductive FError where
  | taskError (code : Int)
  | brokenThreadPool (msg : String)
deriving DecidableEq, Repr

/-- States of a `concurrent.futures.Future`, as used by this pool:
`PENDING`, `RUNNING`, `CANCELLED`, `CANCELLED_AND_NOTIFIED`, `FINISHED`
(with a result or with an exception). -/
inductive FutureState where
  | pending
  | running
  | cancelled
  | cancelledNotified
  | finishedOk (v : Int)
  | finishedErr (e : FError)
deriving DecidableEq, Repr

/-- `Future.set_running_or_notify_cancel`: from `CANCELLED` it moves to
`CANCELLED_AND_NOTIFIED` and reports `false`; from `PENDING` it moves to
`RUNNING` and reports `true`; any other state raises `InvalidStateError`
(modelled as `none`). -/
def setRunningOrNotifyCancel : FutureState → Option (Bool × FutureState)
  | .cancelled => some (false, .cancelledNotified)
  | .pending => some (true, .running)
  | _ => none

/-- `Future.set_result`: legal from `PENDING` or `RUNNING`, otherwise raises
`InvalidStateError` (modelled as `none`). -/
def setResult : FutureState → Int → Option FutureState
  | .pending, v => some (.finishedOk v)
  | .running, v => some (.finishedOk v)
  | _, _ => none

/-- `Future.set_exception`: legal from `PENDING` or `RUNNING`, otherwise raises
`InvalidStateError` (modelled as `none`). -/
def setException : FutureState → FError → Option FutureState
  | .pending, e => some (.finishedErr e)
  | .running, e => some (.finishedErr e)
  | _, _ => none

/-- A future is settled when it is finished with a result or with a fault. -/
def FutureState.isSettled : FutureState → Bool
  | .finishedOk _ => true
  | .finishedErr _ => true
  | _ => false

/-- Helper for deciding equality of task outcomes. -/
def exceptToSum : Except FError Int → Sum FError Int
  | .error e => .inl e
  | .ok v => .inr v

instance : DecidableEq (Except FError Int) := fun a b =>
  decidable_of_iff (exceptToSum a = exceptToSum b)
    (by cases a <;> cases b <;> simp [exceptToSum])

/-- `_WorkItem` (source lines 49-54): a future paired with the task.  The
task callable together with its arguments is modelled by the outcome of
invoking it: normal return of a value or a raised fault. -/
structure WorkItem where
  future : FutureState
  fnResult : Except FError Int
deriving DecidableEq, Repr

/-- `_WorkItem.run` (source lines 56-67): attempt the start transition first;
if it reports the future was cancelled, return without invoking the task;
otherwise invoke the task and settle the future with `set_result` on normal
return or `set_exception` on a raised fault.  Returns the future's new state
and whether the task was invoked; `none` models an uncaught
`InvalidStateError`. -/
def WorkItem.run (w : WorkItem) : Option (FutureState × Bool) :=
  match setRunningOrNotifyCancel w.future with
  | none => none
  | some (false, f) => some (f, false)
  | some (true, f) =>
    match w.fnResult with
    | .ok v => (setResult f v).map (fun f2 => (f2, true))
    | .error e => (setException f e).map (fun f2 => (f2, true))

/-- A worker thread handle: identity, the expiration deadline passed to
`_worker` at spawn, and whether the OS thread is alive (`Thread.is_alive`). -/
structure WThread where
  tid : Nat
  expiration : Nat
  alive : Bool
deriving DecidableEq, Repr

/-- Module-global state (source lines 30-34): the `_shutdown` flag and the
`_threads_queues` registry (for this single pool, the set of registered
worker tids). -/
structure GlobalState where
  shuttingDown : Bool
  threadsQueues : List Nat
deriving DecidableEq, Repr

/-- `TimeoutThreadPoolExecutor` state (source lines 181-193).  The work queue
is FIFO: enqueue at the tail, dequeue from the head; `none` entries are the
poison sentinel.  `broken` is `False` or a reason string, modelled as
`Option String`.  `nextTid` supplies the identity of the next spawned
thread. -/
structure Executor where
  maxWorkers : Nat
  maxTtl : Nat
  workQueue : List (Option WorkItem)
  idleSemaphore : Nat
  threads : List WThread
  broken : Option String
  shutdown : Bool
  threadAliveCheck : Nat
  nextTid : Nat
deriving DecidableEq, Repr

/-- `Semaphore.acquire(timeout=0)`: non-blocking; succeeds and decrements
when the count is positive, otherwise fails leaving the count at zero. -/
def semTryAcquire (n : Nat) : Bool × Nat :=
  if n = 0 then (false, 0) else (true, n - 1)

/-- One stale-thread removal (source lines 232-236): a non-blocking acquire
of the idle semaphore, removal from the executor's `_threads` set, and
deletion from the process-wide `_threads_queues` registry. -/
def removeStaleThread (p : Executor × GlobalState) (t : WThread) :
    Executor × GlobalState :=
  ({ p.1 with
      idleSemaphore := (semTryAcquire p.1.idleSemaphore).2
      threads := p.1.threads.filter (fun u => u.tid ≠ t.tid) },
   { p.2 with
      threadsQueues := p.2.threadsQueues.filter (fun id => id ≠ t.tid) })

/-- The liveness sweep at the head of `_adjust_thread_count` (source lines
230-237): when more than 30 seconds have elapsed since the last liveness
check, every thread in the live-worker set whose underlying thread is no
longer alive is removed by `removeStaleThread`, and the check timestamp is
reset to now. -/
def staleSweep (now : Nat) (ex : Executor) (g : GlobalState) :
    Executor × GlobalState :=
  if 30 < now - ex.threadAliveCheck then
    let toRemove := ex.threads.filter (fun t => !t.alive)
    let p1 := toRemove.foldl removeStaleThread (ex, g)
    ({ p1.1 with threadAliveCheck := now }, p1.2)
  else (ex, g)

/-- The spawn decision of `_adjust_thread_count` (source lines 239-261): if
an idle-semaphore permit can be acquired non-blockingly, no thread is
spawned; otherwise, if the current thread count is below `maxWorkers`, a new
worker is started with expiration `now + maxTtl`, added to the live-worker
set and registered in `_threads_queues`. -/
def spawnPhase (now : Nat) (ex : Executor) (g : GlobalState) :
    Executor × GlobalState :=
  let acq := semTryAcquire ex.idleSemaphore
  if acq.1 then ({ ex with idleSemaphore := acq.2 }, g)
  else
    if ex.threads.length < ex.maxWorkers then
      let t : WThread := ⟨ex.nextTid, now + ex.maxTtl, true⟩
      ({ ex with
          threads := ex.threads ++ [t]
          nextTid := ex.nextTid + 1 },
       { g with threadsQueues := g.threadsQueues ++ [t.tid] })
    else (ex, g)

/-- `_adjust_thread_count` (source lines 229-261): the liveness sweep runs
first, then the spawn decision is made on the swept state. -/
def adjustThreadCount (now : Nat) (ex : Executor) (g : GlobalState) :
    Executor × GlobalState :=
  let p := staleSweep now ex g
  spawnPhase now p.1 p.2

/-- Failures `submit` can raise (source lines 212-219): `BrokenThreadPool`
when the pool is broken, `RuntimeError` after executor or interpreter
shutdown (both carried here with their message). -/
inductive SubmitError where
  | brokenPool (msg : String)
  | afterShutdown (msg : String)
deriving DecidableEq, Repr

/-- `submit` (source lines 195-226): under the executor lock and the global
shutdown lock, raise `BrokenThreadPool` if the pool is broken; raise
`RuntimeError` if the executor is shut down or the interpreter is shutting
down; otherwise create a fresh pending future, wrap it with the task into a
work item, enqueue it, run `_adjust_thread_count`, and return the future. -/
def submit (now : Nat) (task : Except FError Int) (ex : Executor)
    (g : GlobalState) :
    Except SubmitError (FutureState × Executor × GlobalState) :=
  match ex.broken with
  | some msg => .error (.brokenPool msg)
  | none =>
    if ex.shutdown then
      .error (.afterShutdown "cannot schedule new futures after shutdown")
    else if g.shuttingDown then
      .error (.afterShutdown
        "cannot schedule new futures after interpreter shutdown")
    else
      let f := FutureState.pending
      let w : WorkItem := ⟨f, task⟩
      let ex1 := { ex with workQueue := ex.workQueue ++ [some w] }
      let p := adjustThreadCount now ex1 g
      .ok (f, p.1, p.2)

/-- The self-retirement step of an expired worker (source lines 86-93 and
103-111, identical bodies): a non-blocking acquire of the idle semaphore,
then, with the executor shutdown lock and the global shutdown lock held
together, removal of the current thread from the executor's `_threads` set
and deletion of its entry from the `_threads_queues` registry.  The worker
then returns from `_worker`, so its thread exits. -/
def workerExpire (tid : Nat) (ex : Executor) (g : GlobalState) :
    Executor × GlobalState :=
  ({ ex with
      idleSemaphore := (semTryAcquire ex.idleSemaphore).2
      threads := ex.threads.filter (fun u => u.tid ≠ tid) },
   { g with threadsQueues := g.threadsQueues.filter (fun id => id ≠ tid) })

/-- Whether one iteration of the worker loop returns (the thread exits) or
goes around the loop again. -/
inductive StepOutcome where
  | keepPolling
  | exited
deriving DecidableEq, Repr

/-- One iteration of the `_worker` poll loop (source lines 81-131), for the
worker with identity `tid` and the `expiration_time` argument `exp` fixed at
spawn.  `now` is the `time.monotonic()` reading taken at the iteration's
deadline check; `reachable` is whether `executor_reference()` still yields
the executor (the pool has not been garbage collected).

* Empty queue (`queue.Empty` after the 5-second poll): when `now` has
  reached the expiration deadline, the worker runs the self-retirement step
  (when the executor is reachable) and exits; otherwise it polls again.
* A real work item at the head: the item is dequeued and executed (the
  future transition itself is `WorkItem.run`); afterwards, when the executor
  is reachable, the worker retires as above if the deadline has passed, and
  otherwise releases one idle-semaphore permit and polls again.
* Poison (`None`) at the head: the worker exits iff the interpreter is
  shutting down, the executor is unreachable, or the executor is shut down;
  on exit it sets the executor's shutdown flag (when reachable) and
  re-enqueues one poison value; otherwise it polls again. -/
def workerStep (tid exp now : Nat) (reachable : Bool) (ex : Executor)
    (g : GlobalState) : StepOutcome × Executor × GlobalState :=
  match ex.workQueue with
  | [] =>
    if exp ≤ now then
      if reachable then (.exited, workerExpire tid ex g)
      else (.exited, ex, g)
    else (.keepPolling, ex, g)
  | some _ :: rest =>
    let ex1 := { ex with workQueue := rest }
    if reachable then
      if exp ≤ now then (.exited, workerExpire tid ex1 g)
      else (.keepPolling, { ex1 with idleSemaphore := ex1.idleSemaphore + 1 }, g)
    else (.keepPolling, ex1, g)
  | none :: rest =>
    let ex1 := { ex with workQueue := rest }
    if g.shuttingDown || !reachable || ex1.shutdown then
      let ex2 := if reachable then { ex1 with shutdown := true } else ex1
      (.exited, { ex2 with workQueue := ex2.workQueue ++ [none] }, g)
    else (.keepPolling, ex1, g)

/-- The reason string set by `_initializer_failed` (source lines 265-266). -/
def brokenMsg : String :=
  "A thread initializer failed, the thread pool is not usable anymore"

/-- The drain loop of `_initializer_failed` (source lines 268-274): pop queue
entries until the queue is empty, skipping poison entries, and settle each
real work item's future as failed with `BrokenThreadPool`.  Returns the
remaining queue, the settled futures in drain order, and whether the drain
ran to completion (`false` when a `set_exception` raised
`InvalidStateError`, which aborts the drain). -/
def drainFail : List (Option WorkItem) → List FutureState →
    List (Option WorkItem) × List FutureState × Bool
  | [], acc => ([], acc, true)
  | none :: rest, acc => drainFail rest acc
  | some wi :: rest, acc =>
    match setException wi.future (.brokenThreadPool brokenMsg) with
    | none => (rest, acc, false)
    | some f => drainFail rest (acc ++ [f])

/-- `_initializer_failed` (source lines 263-274): under the executor lock,
set `_broken` to the reason string, then drain the work queue, failing each
pending work item's future with `BrokenThreadPool`. -/
def initializerFailed (ex : Executor) :
    Executor × List FutureState × Bool :=
  let d := drainFail ex.workQueue []
  ({ ex with broken := some brokenMsg, workQueue := d.1 }, d.2.1, d.2.2)

/-- The initializer phase of `_worker` (source lines 71-79): when the
initializer raises, the fault is logged, `_initializer_failed` runs on the
executor when it is still reachable, and the worker returns without ever
entering the poll loop.  Returns the updated executor, the futures settled
by the drain, and whether the worker proceeds into the poll loop. -/
def workerInitPhase (initFails reachable : Bool) (ex : Executor) :
    Executor × List FutureState × Bool :=
  if initFails then
    if reachable then
      let r := initializerFailed ex
      (r.1, r.2.1, false)
    else (ex, [], false)
  else (ex, [], true)

/-- `shutdown` (source lines 276-282): under the executor lock, set the
shutdown flag and enqueue one poison value; then, when `wait` is requested,
join every thread currently in the live-worker set.  A joined thread has
terminated when `join` returns, so joining is modelled as observing
`alive = false` on every thread in the set. -/
def shutdownExec (wait : Bool) (ex : Executor) : Executor :=
  let ex1 := { ex with shutdown := true, workQueue := ex.workQueue ++ [none] }
  if wait then
    { ex1 with threads := ex1.threads.map (fun t => { t with alive := false }) }
  else ex1

/-- One `submit` call in a sequence, given by the `time.monotonic()` reading
at the call and the submitted task; a rejected submission leaves the state
unchanged (the exception is raised before any mutation). -/
def submitStep (p : Executor × GlobalState)
    (e : Nat × Except FError Int) : Executor × GlobalState :=
  match submit e.1 e.2 p.1 p.2 with
  | .ok r => (r.2.1, r.2.2)
  | .error _ => p

/-- A sequence of `submit` calls against the pool. -/
def runSubmits (evts : List (Nat × Except FError Int))
    (ex : Executor) (g : GlobalState) : Executor × GlobalState :=
  evts.foldl submitStep (ex, g)

/-- Whether every real work item sitting in the queue still has a pending
future (the normal situation: queued items have not been claimed by any
worker, and their futures were created pending by `submit`). -/
def allPendingQueue : List (Option WorkItem) → Bool
  | [] => true
  | none :: rest => allPendingQueue rest
  | some wi :: rest =>
    match wi.future with
    | .pending => allPendingQueue rest
    | _ => false

/-- Modelled from the spec's words, for comparison with the source (claim
C1): the pending-job count the spec's spawn heuristic reads — the number of
submitted-but-not-yet-executed jobs, i.e. the real work items sitting in the
work queue. -/
def specPendingJobCount (ex : Executor) : Nat :=
  (ex.workQueue.filter Option.isSome).length

/-- Modelled from the spec's words, for comparison with the source (claim
C1): `needsWorker = pendingJobCount ≥ currentWorkerCount`. -/
def specNeedsWorker (ex : Executor) : Bool :=
  ex.threads.length ≤ specPendingJobCount ex

/-- Modelled from the spec's words, for comparison with the source (claim
C6): the spec's expiring path — remove self from the live-worker set and the
registry, then invoke the spawn heuristic again before the thread exits. -/
def specExpirePath (tid now : Nat) (ex : Executor) (g : GlobalState) :
    Executor × GlobalState :=
  let p := workerExpire tid ex g
  adjustThreadCount now p.1 p.2

/-! ## Basic lemmas -/

theorem semTryAcquire_snd (n : Nat) : (semTryAcquire n).2 = n - 1 := by
  cases n <;> simp [semTryAcquire]

theorem staleSweep_skip (now : Nat) (ex : Executor) (g : GlobalState)
    (hchk : ¬ 30 < now - ex.threadAliveCheck) :
    staleSweep now ex g = (ex, g) := by
  simp [staleSweep, hchk]

/-! ## Claims -/

/-- C3: executing a work item settles its future exactly once: the
pending-to-running transition is attempted first, and when it reports the
future was already cancelled the task is never invoked and the future is not
settled; otherwise the task runs and the future is settled with its return
value on normal return or with the raised fault on an exception, never
both. -/
theorem C3_run_settles_once (w : WorkItem) :
    (w.future = .cancelled →
      w.run = some (.cancelledNotified, false)
      ∧ FutureState.isSettled FutureState.cancelledNotified = false)
  ∧ (w.future = .pending →
      (∀ v, w.fnResult = .ok v → w.run = some (.finishedOk v, true)
        ∧ FutureState.isSettled (FutureState.finishedOk v) = true)
      ∧ (∀ e, w.fnResult = .error e → w.run = some (.finishedErr e, true)
        ∧ FutureState.isSettled (FutureState.finishedErr e) = true)) := by
  constructor
  · intro hc
    simp [WorkItem.run, setRunningOrNotifyCancel, hc, FutureState.isSettled]
  · intro hp
    constructor
    · intro v hv
      simp [WorkItem.run, setRunningOrNotifyCancel, hp, hv, setResult,
        FutureState.isSettled]
    · intro e he
      simp [WorkItem.run, setRunningOrNotifyCancel, hp, he, setException,
        FutureState.isSettled]

theorem C3_run_settles_once_witness :
    WorkItem.run ⟨FutureState.pending, Except.ok 7⟩
      = some (FutureState.finishedOk 7, true)
  ∧ WorkItem.run ⟨FutureState.cancelled, Except.ok 7⟩
      = some (FutureState.cancelledNotified, false) :=
  ⟨(((C3_run_settles_once ⟨FutureState.pending, Except.ok 7⟩).2 rfl).1 7 rfl).1,
   ((C3_run_settles_once ⟨FutureState.cancelled, Except.ok 7⟩).1 rfl).1⟩

/-- C2: `submit` rejects with `BrokenThreadPool` when the pool is broken;
otherwise rejects with the after-shutdown `RuntimeError` when the executor
is shut down or the interpreter is shutting down; otherwise it enqueues a
work item wrapping the task and a fresh pending future, invokes the spawn
heuristic, and returns that future. -/
theorem C2_submit_protocol (now : Nat) (task : Except FError Int)
    (ex : Executor) (g : GlobalState) :
    (∀ msg, ex.broken = some msg →
      submit now task ex g = .error (.brokenPool msg))
  ∧ (ex.broken = none → ex.shutdown = true →
      submit now task ex g =
        .error (.afterShutdown "cannot schedule new futures after shutdown"))
  ∧ (ex.broken = none → ex.shutdown = false → g.shuttingDown = true →
      submit now task ex g =
        .error (.afterShutdown
          "cannot schedule new futures after interpreter shutdown"))
  ∧ (ex.broken = none → ex.shutdown = false → g.shuttingDown = false →
      submit now task ex g =
        .ok (FutureState.pending,
          adjustThreadCount now
            { ex with workQueue :=
                ex.workQueue ++ [some ⟨FutureState.pending, task⟩] } g)) := by
  refine ⟨fun msg hb => ?_, fun hb hs => ?_, fun hb hs hg => ?_,
    fun hb hs hg => ?_⟩
  · simp [submit, hb]
  · simp [submit, hb, hs]
  · simp [submit, hb, hs, hg]
  · simp [submit, hb, hs, hg]

theorem C2_submit_protocol_witness :
    submit 0 (Except.ok 1)
      ⟨2, 300, [], 0, [], some "x", false, 0, 0⟩ ⟨false, []⟩
      = .error (.brokenPool "x")
  ∧ submit 0 (Except.ok 1)
      ⟨2, 300, [], 0, [], none, true, 0, 0⟩ ⟨false, []⟩
      = .error (.afterShutdown "cannot schedule new futures after shutdown") :=
  ⟨(C2_submit_protocol 0 (Except.ok 1)
      ⟨2, 300, [], 0, [], some "x", false, 0, 0⟩ ⟨false, []⟩).1 "x" rfl,
   (C2_submit_protocol 0 (Except.ok 1)
      ⟨2, 300, [], 0, [], none, true, 0, 0⟩ ⟨false, []⟩).2.1 rfl rfl⟩

/-- C7: on dequeuing the poison value, the worker exits iff the interpreter
is shutting down, the owning executor is unreachable, or the executor is
shut down; on exit it sets the executor's shutdown flag when the executor is
reachable and re-enqueues exactly one poison value; when no condition holds
it returns to polling without exiting. -/
theorem C7_poison_protocol (tid exp now : Nat) (reachable : Bool)
    (ex : Executor) (g : GlobalState) (rest : List (Option WorkItem))
    (hq : ex.workQueue = none :: rest) :
    ((workerStep tid exp now reachable ex g).1 = .exited
      ↔ (g.shuttingDown = true ∨ reachable = false ∨ ex.shutdown = true))
  ∧ ((g.shuttingDown = true ∨ reachable = false ∨ ex.shutdown = true) →
      (reachable = true →
        (workerStep tid exp now reachable ex g).2.1.shutdown = true)
      ∧ (workerStep tid exp now reachable ex g).2.1.workQueue
          = rest ++ [none])
  ∧ (¬(g.shuttingDown = true ∨ reachable = false ∨ ex.shutdown = true) →
      workerStep tid exp now reachable ex g
        = (.keepPolling, { ex with workQueue := rest }, g)) := by
  obtain ⟨mw, ttl, q, sem, ths, br, sd, chk, nt⟩ := ex
  obtain ⟨gs, gt⟩ := g
  simp only at hq
  subst hq
  cases gs <;> cases reachable <;> cases sd <;> simp [workerStep]

theorem C7_poison_protocol_witness :
    (workerStep 0 10 3 true
        ⟨2, 300, [none], 0, [], none, true, 0, 0⟩ ⟨false, []⟩).1
      = StepOutcome.exited
  ∧ (workerStep 0 10 3 true
        ⟨2, 300, [none], 0, [], none, true, 0, 0⟩ ⟨false, []⟩).2.1.workQueue
      = [none] :=
  ⟨((C7_poison_protocol 0 10 3 true
      ⟨2, 300, [none], 0, [], none, true, 0, 0⟩ ⟨false, []⟩ [] rfl).1).2
      (Or.inr (Or.inr rfl)),
   ((C7_poison_protocol 0 10 3 true
      ⟨2, 300, [none], 0, [], none, true, 0, 0⟩ ⟨false, []⟩ [] rfl).2.1
      (Or.inr (Or.inr rfl))).2⟩

/-- C1, counterexample: the claim says the spawn heuristic computes
`needsWorker = pendingJobCount ≥ currentWorkerCount` and spawns exactly when
`needsWorker` holds and the worker count is below `maxWorkers`.  In the
state below there is one pending job and one worker (so the claimed
`needsWorker` holds) and capacity remains (1 < 2), yet the source heuristic
consumes the available idle-semaphore permit and spawns nothing: the spawn
decision is driven by the idle semaphore, not by a pending-job count. -/
theorem C1_counterexample :
    specNeedsWorker
        ⟨2, 300, [some ⟨FutureState.pending, Except.ok 0⟩], 1,
          [⟨0, 400, true⟩], none, false, 100, 1⟩ = true
  ∧ (⟨2, 300, [some ⟨FutureState.pending, Except.ok 0⟩], 1,
        [⟨0, 400, true⟩], none, false, 100, 1⟩ : Executor).threads.length
      < (⟨2, 300, [some ⟨FutureState.pending, Except.ok 0⟩], 1,
          [⟨0, 400, true⟩], none, false, 100, 1⟩ : Executor).maxWorkers
  ∧ (adjustThreadCount 100
        ⟨2, 300, [some ⟨FutureState.pending, Except.ok 0⟩], 1,
          [⟨0, 400, true⟩], none, false, 100, 1⟩
        ⟨false, [0]⟩).1.threads.length = 1 := by
  decide

/-- C1, amended: when the stale-thread sweep does not intervene, the spawn
heuristic spawns a new worker exactly when no idle-semaphore permit can be
acquired non-blockingly and the current worker count is below `maxWorkers`;
the spawned worker has expiration `now + ttl`, is appended to the
live-worker set, registered in the process-wide registry, and started; when
a permit is available it is consumed and nothing is spawned. -/
theorem C1_spawn_heuristic (now : Nat) (ex : Executor) (g : GlobalState)
    (hchk : ¬ 30 < now - ex.threadAliveCheck) :
    ((adjustThreadCount now ex g).1.threads.length = ex.threads.length + 1
      ↔ (ex.idleSemaphore = 0 ∧ ex.threads.length < ex.maxWorkers))
  ∧ (ex.idleSemaphore = 0 → ex.threads.length < ex.maxWorkers →
      adjustThreadCount now ex g =
        ({ ex with
            threads := ex.threads ++ [⟨ex.nextTid, now + ex.maxTtl, true⟩]
            nextTid := ex.nextTid + 1 },
         { g with threadsQueues := g.threadsQueues ++ [ex.nextTid] }))
  ∧ (0 < ex.idleSemaphore →
      adjustThreadCount now ex g =
        ({ ex with idleSemaphore := ex.idleSemaphore - 1 }, g)) := by
  cases hsem : ex.idleSemaphore with
  | zero =>
    by_cases hlen : ex.threads.length < ex.maxWorkers
    · simp [adjustThreadCount, staleSweep_skip now ex g hchk, spawnPhase,
        semTryAcquire, hsem, hlen]
    · simp [adjustThreadCount, staleSweep_skip now ex g hchk, spawnPhase,
        semTryAcquire, hsem, hlen]
  | succ k =>
    simp [adjustThreadCount, staleSweep_skip now ex g hchk, spawnPhase,
      semTryAcquire, hsem]

theorem C1_spawn_heuristic_witness :
    adjustThreadCount 100
        ⟨2, 300, [some ⟨FutureState.pending, Except.ok 0⟩], 0,
          [⟨0, 400, true⟩], none, false, 100, 1⟩ ⟨false, [0]⟩
      = (⟨2, 300, [some ⟨FutureState.pending, Except.ok 0⟩], 0,
          [⟨0, 400, true⟩, ⟨1, 400, true⟩], none, false, 100, 2⟩,
         ⟨false, [0, 1]⟩) :=
  (C1_spawn_heuristic 100
      ⟨2, 300, [some ⟨FutureState.pending, Except.ok 0⟩], 0,
        [⟨0, 400, true⟩], none, false, 100, 1⟩ ⟨false, [0]⟩
      (by decide)).2.1 rfl (by decide)

/-- Joining is idempotent on the live-worker set: observing termination
twice is the same as observing it once. -/
theorem map_aliveFalse_idem (l : List WThread) :
    (l.map (fun t => { t with alive := false })).map
        (fun t => { t with alive := false })
      = l.map (fun t => { t with alive := false }) := by
  induction l with
  | nil => rfl
  | cons a l ih =>
    simp only [List.map_cons]
    rw [ih]

/-- C6, counterexample: the claim says the expiring worker, after removing
itself from the live-worker set and the process-wide registry, invokes the
spawn heuristic again before its thread exits.  In the state below a real
work item is queued, the idle semaphore is empty and capacity remains after
the removal, so the claimed path would spawn a replacement worker; the
source path spawns nothing: the worker count drops to zero and the two
paths produce different states. -/
theorem C6_counterexample :
    (workerExpire 0
        ⟨2, 300, [some ⟨FutureState.pending, Except.ok 0⟩], 0,
          [⟨0, 50, true⟩], none, false, 100, 1⟩
        ⟨false, [0]⟩).1.threads.length = 0
  ∧ (specExpirePath 0 100
        ⟨2, 300, [some ⟨FutureState.pending, Except.ok 0⟩], 0,
          [⟨0, 50, true⟩], none, false, 100, 1⟩
        ⟨false, [0]⟩).1.threads.length = 1
  ∧ workerExpire 0
        ⟨2, 300, [some ⟨FutureState.pending, Except.ok 0⟩], 0,
          [⟨0, 50, true⟩], none, false, 100, 1⟩
        ⟨false, [0]⟩
      ≠ specExpirePath 0 100
        ⟨2, 300, [some ⟨FutureState.pending, Except.ok 0⟩], 0,
          [⟨0, 50, true⟩], none, false, 100, 1⟩
        ⟨false, [0]⟩ := by
  decide

/-- C6, amended: when a worker's expiration deadline has passed and it
retires itself, it performs, with the executor lock and the global registry
lock held together, a non-blocking idle-counter decrement and removal of
itself from the executor's live-worker set and from the process-wide
registry, and then its thread exits without invoking the spawn heuristic
again: the live-worker set never grows on this path. -/
theorem C6_expire_behavior (tid : Nat) (ex : Executor) (g : GlobalState) :
    (workerExpire tid ex g).1.threads
        = ex.threads.filter (fun u => u.tid ≠ tid)
  ∧ (workerExpire tid ex g).2.threadsQueues
        = g.threadsQueues.filter (fun id => id ≠ tid)
  ∧ (workerExpire tid ex g).1.idleSemaphore = ex.idleSemaphore - 1
  ∧ (workerExpire tid ex g).1.workQueue = ex.workQueue
  ∧ (workerExpire tid ex g).1.threads.length ≤ ex.threads.length
  ∧ (∀ t ∈ (workerExpire tid ex g).1.threads, t ∈ ex.threads)
  ∧ (∀ exp now, ex.workQueue = [] → exp ≤ now →
      workerStep tid exp now true ex g = (.exited, workerExpire tid ex g)) := by
  refine ⟨rfl, rfl, semTryAcquire_snd _, rfl, ?_, ?_, ?_⟩
  · exact List.length_filter_le _ _
  · intro t ht
    exact List.mem_of_mem_filter ht
  · intro exp now hq hle
    obtain ⟨mw, ttl, q, sem, ths, br, sd, chk, nt⟩ := ex
    simp only at hq
    subst hq
    simp [workerStep, hle]

theorem C6_expire_behavior_witness :
    (workerExpire 3
        ⟨1, 300, [], 1, [⟨3, 50, true⟩], none, false, 0, 4⟩
        ⟨false, [3]⟩).1.threads = []
  ∧ workerStep 3 50 60 true
        ⟨1, 300, [], 1, [⟨3, 50, true⟩], none, false, 0, 4⟩
        ⟨false, [3]⟩
      = (StepOutcome.exited,
          workerExpire 3
            ⟨1, 300, [], 1, [⟨3, 50, true⟩], none, false, 0, 4⟩
            ⟨false, [3]⟩) :=
  ⟨by

    rw [(C6_expire_behavior 3
        ⟨1, 300, [], 1, [⟨3, 50, true⟩], none, false, 0, 4⟩
        ⟨false, [3]⟩).1]
    decide,
   (C6_expire_behavior 3
      ⟨1, 300, [], 1, [⟨3, 50, true⟩], none, false, 0, 4⟩
      ⟨false, [3]⟩).2.2.2.2.2.2 50 60 rfl (by decide)⟩

/-- C9, counterexample: the claim says `shutdown(wait)` is idempotent with
respect to the executor's state; but each call enqueues one poison value
into the executor's own work queue, so a second call changes the state
again (the queue grows from one poison entry to two). -/
theorem C9_counterexample :
    shutdownExec true
        (shutdownExec true ⟨2, 300, [], 0, [⟨5, 40, true⟩], none, false, 0, 6⟩)
      ≠ shutdownExec true ⟨2, 300, [], 0, [⟨5, 40, true⟩], none, false, 0, 6⟩ := by
  decide

/-- C9, amended: `shutdown(wait)` sets the shutdown flag and enqueues
exactly one poison value, then, when `wait` is requested, joins every thread
currently in the live-worker set, so after a waiting shutdown no thread of
the set remains alive; the operation is idempotent with respect to the
executor's state except for the work queue, which receives one additional
poison value on each call. -/
theorem C9_shutdown_behavior (wait : Bool) (ex : Executor) :
    (shutdownExec wait ex).shutdown = true
  ∧ (shutdownExec wait ex).workQueue = ex.workQueue ++ [none]
  ∧ (wait = true → ∀ t ∈ (shutdownExec wait ex).threads, t.alive = false)
  ∧ (shutdownExec wait ex).threads.length = ex.threads.length
  ∧ (∀ t ∈ (shutdownExec wait ex).threads,
      ∃ u ∈ ex.threads, t.tid = u.tid ∧ t.expiration = u.expiration)
  ∧ shutdownExec wait (shutdownExec wait ex)
      = { shutdownExec wait ex with
          workQueue := (shutdownExec wait ex).workQueue ++ [none] } := by
  obtain ⟨mw, ttl, q, sem, ths, br, sd, chk, nt⟩ := ex
  cases wait
  · refine ⟨rfl, rfl, by simp, rfl, ?_, ?_⟩
    · intro t ht
      exact ⟨t, ht, rfl, rfl⟩
    · simp [shutdownExec]
  · refine ⟨rfl, rfl, ?_, by simp [shutdownExec], ?_, ?_⟩
    · intro _ t ht
      simp [shutdownExec] at ht
      obtain ⟨u, hu, rfl⟩ := ht
      rfl
    · intro t ht
      simp [shutdownExec] at ht
      obtain ⟨u, hu, rfl⟩ := ht
      exact ⟨u, hu, rfl, rfl⟩
    · simp [shutdownExec]

theorem C9_shutdown_behavior_witness :
    (shutdownExec true ⟨2, 300, [], 0, [⟨5, 40, true⟩], none, false, 0, 6⟩).shutdown
      = true
  ∧ (shutdownExec true
        ⟨2, 300, [], 0, [⟨5, 40, true⟩], none, false, 0, 6⟩).workQueue = [none]
  ∧ WThread.alive ⟨5, 40, false⟩ = false :=
  ⟨(C9_shutdown_behavior true
      ⟨2, 300, [], 0, [⟨5, 40, true⟩], none, false, 0, 6⟩).1,
   (C9_shutdown_behavior true
      ⟨2, 300, [], 0, [⟨5, 40, true⟩], none, false, 0, 6⟩).2.1,
   (C9_shutdown_behavior true
      ⟨2, 300, [], 0, [⟨5, 40, true⟩], none, false, 0, 6⟩).2.2.1 rfl
      ⟨5, 40, false⟩ (by decide)⟩

/-! ## Lemmas about the stale-thread sweep fold -/

theorem foldl_remove_threads_subset (L : List WThread)
    (p : Executor × GlobalState) :
    ∀ u ∈ (L.foldl removeStaleThread p).1.threads, u ∈ p.1.threads := by
  induction L generalizing p with
  | nil => intro u hu; exact hu
  | cons a L ih =>
    intro u hu
    exact List.mem_of_mem_filter (ih (removeStaleThread p a) u hu)

theorem foldl_remove_registry_subset (L : List WThread)
    (p : Executor × GlobalState) :
    ∀ i ∈ (L.foldl removeStaleThread p).2.threadsQueues,
      i ∈ p.2.threadsQueues := by
  induction L generalizing p with
  | nil => intro i hi; exact hi
  | cons a L ih =>
    intro i hi
    exact List.mem_of_mem_filter (ih (removeStaleThread p a) i hi)

theorem foldl_remove_tid_gone (L : List WThread)
    (p : Executor × GlobalState) (t : WThread) (ht : t ∈ L) :
    (∀ u ∈ (L.foldl removeStaleThread p).1.threads, u.tid ≠ t.tid)
  ∧ t.tid ∉ (L.foldl removeStaleThread p).2.threadsQueues := by
  induction L generalizing p with
  | nil => cases ht
  | cons a L ih =>
    rcases List.mem_cons.1 ht with h | hmem
    · subst h
      constructor
      · intro u hu
        have h2 := foldl_remove_threads_subset L (removeStaleThread p t) u hu
        have h3 := List.of_mem_filter h2
        simp at h3
        exact h3
      · intro hcon
        have h2 :=
          foldl_remove_registry_subset L (removeStaleThread p t) t.tid hcon
        have h3 := List.of_mem_filter h2
        simp at h3
    · exact ih (removeStaleThread p a) hmem

theorem foldl_remove_keep (L : List WThread) (p : Executor × GlobalState)
    (u : WThread) (hu : u ∈ p.1.threads) (hne : ∀ t ∈ L, u.tid ≠ t.tid) :
    u ∈ (L.foldl removeStaleThread p).1.threads := by
  induction L generalizing p with
  | nil => exact hu
  | cons a L ih =>
    refine ih (removeStaleThread p a) ?_ ?_
    · exact List.mem_filter.2 ⟨hu, by simp [hne a (List.mem_cons_self a L)]⟩
    · intro t htL
      exact hne t (List.mem_cons_of_mem a htL)

theorem foldl_remove_preserve (L : List WThread)
    (p : Executor × GlobalState) :
    (L.foldl removeStaleThread p).1.maxWorkers = p.1.maxWorkers
  ∧ (L.foldl removeStaleThread p).1.maxTtl = p.1.maxTtl
  ∧ (L.foldl removeStaleThread p).1.nextTid = p.1.nextTid
  ∧ (L.foldl removeStaleThread p).1.workQueue = p.1.workQueue
  ∧ (L.foldl removeStaleThread p).1.broken = p.1.broken
  ∧ (L.foldl removeStaleThread p).1.shutdown = p.1.shutdown
  ∧ (L.foldl removeStaleThread p).1.threadAliveCheck
      = p.1.threadAliveCheck
  ∧ (L.foldl removeStaleThread p).2.shuttingDown = p.2.shuttingDown := by
  induction L generalizing p with
  | nil => exact ⟨rfl, rfl, rfl, rfl, rfl, rfl, rfl, rfl⟩
  | cons a L ih => exact ih (removeStaleThread p a)

theorem foldl_remove_length_le (L : List WThread)
    (p : Executor × GlobalState) :
    (L.foldl removeStaleThread p).1.threads.length
      ≤ p.1.threads.length := by
  induction L generalizing p with
  | nil => exact le_refl _
  | cons a L ih =>
    exact le_trans (ih (removeStaleThread p a)) (List.length_filter_le _ _)

/-! ## Lemmas about the spawn phase -/

theorem spawnPhase_threads_mem (now : Nat) (ex : Executor)
    (g : GlobalState) :
    ∀ u ∈ (spawnPhase now ex g).1.threads,
      u ∈ ex.threads ∨ u = ⟨ex.nextTid, now + ex.maxTtl, true⟩ := by
  intro u hu
  simp only [spawnPhase] at hu
  split at hu
  · exact Or.inl hu
  · split at hu
    · rcases List.mem_append.1 hu with h1 | h2
      · exact Or.inl h1
      · exact Or.inr (List.mem_singleton.1 h2)
    · exact Or.inl hu

theorem spawnPhase_threads_keep (now : Nat) (ex : Executor)
    (g : GlobalState) :
    ∀ u ∈ ex.threads, u ∈ (spawnPhase now ex g).1.threads := by
  intro u hu
  simp only [spawnPhase]
  split
  · exact hu
  · split
    · exact List.mem_append.2 (Or.inl hu)
    · exact hu

theorem spawnPhase_registry_mem (now : Nat) (ex : Executor)
    (g : GlobalState) :
    ∀ i ∈ (spawnPhase now ex g).2.threadsQueues,
      i ∈ g.threadsQueues ∨ i = ex.nextTid := by
  intro i hi
  simp only [spawnPhase] at hi
  split at hi
  · exact Or.inl hi
  · split at hi
    · rcases List.mem_append.1 hi with h1 | h2
      · exact Or.inl h1
      · exact Or.inr (List.mem_singleton.1 h2)
    · exact Or.inl hi

theorem spawnPhase_preserve (now : Nat) (ex : Executor) (g : GlobalState) :
    (spawnPhase now ex g).1.maxWorkers = ex.maxWorkers
  ∧ (spawnPhase now ex g).1.maxTtl = ex.maxTtl
  ∧ (spawnPhase now ex g).1.workQueue = ex.workQueue
  ∧ (spawnPhase now ex g).1.broken = ex.broken
  ∧ (spawnPhase now ex g).1.shutdown = ex.shutdown
  ∧ (spawnPhase now ex g).1.threadAliveCheck = ex.threadAliveCheck
  ∧ (spawnPhase now ex g).2.shuttingDown = g.shuttingDown := by
  simp only [spawnPhase]
  split
  · exact ⟨rfl, rfl, rfl, rfl, rfl, rfl, rfl⟩
  · split
    · exact ⟨rfl, rfl, rfl, rfl, rfl, rfl, rfl⟩
    · exact ⟨rfl, rfl, rfl, rfl, rfl, rfl, rfl⟩

theorem spawnPhase_length (now : Nat) (ex : Executor) (g : GlobalState) :
    (ex.threads.length ≤ ex.maxWorkers →
      (spawnPhase now ex g).1.threads.length ≤ ex.maxWorkers)
  ∧ (ex.maxWorkers ≤ ex.threads.length →
      (spawnPhase now ex g).1.threads.length = ex.threads.length) := by
  simp only [spawnPhase]
  split
  · exact ⟨fun h => h, fun _ => rfl⟩
  · split
    · next hlt =>
      constructor
      · intro _
        simpa using Nat.succ_le_of_lt hlt
      · intro hge
        exact absurd hlt (Nat.not_lt.2 hge)
    · exact ⟨fun h => h, fun _ => rfl⟩

/-- C10: whenever `_adjust_thread_count` runs with more than 30 seconds
elapsed since the last liveness check, every dead thread in the live-worker
set is removed from both the live-worker set and the process-wide registry
(each removal with a non-blocking decrement of the idle counter), the sweep
happens before the spawn decision, and the liveness-check timestamp is reset
to the current time; threads that are still alive survive the sweep. -/
theorem C10_stale_sweep (now : Nat) (ex : Executor) (g : GlobalState)
    (h30 : 30 < now - ex.threadAliveCheck)
    (hfresh : ∀ t ∈ ex.threads, t.tid < ex.nextTid)
    (hdist : ex.threads.Pairwise (fun a b => a.tid ≠ b.tid)) :
    (∀ p t, (removeStaleThread p t).1.idleSemaphore
          = p.1.idleSemaphore - 1
        ∧ (removeStaleThread p t).1.threads
          = p.1.threads.filter (fun u => u.tid ≠ t.tid)
        ∧ (removeStaleThread p t).2.threadsQueues
          = p.2.threadsQueues.filter (fun id => id ≠ t.tid))
  ∧ adjustThreadCount now ex g
      = spawnPhase now (staleSweep now ex g).1 (staleSweep now ex g).2
  ∧ (∀ t ∈ ex.threads, t.alive = false →
        (∀ u ∈ (adjustThreadCount now ex g).1.threads, u.tid ≠ t.tid)
        ∧ t.tid ∉ (adjustThreadCount now ex g).2.threadsQueues)
  ∧ (adjustThreadCount now ex g).1.threadAliveCheck = now
  ∧ (∀ t ∈ ex.threads, t.alive = true →
        t ∈ (adjustThreadCount now ex g).1.threads) := by
  have hsw : staleSweep now ex g
      = ({ ((ex.threads.filter (fun t => !t.alive)).foldl
              removeStaleThread (ex, g)).1 with threadAliveCheck := now },
         ((ex.threads.filter (fun t => !t.alive)).foldl
              removeStaleThread (ex, g)).2) := by
    simp [staleSweep, h30]
  have hth : (staleSweep now ex g).1.threads
      = ((ex.threads.filter (fun t => !t.alive)).foldl
          removeStaleThread (ex, g)).1.threads := by
    rw [hsw]
  have hnt : (staleSweep now ex g).1.nextTid = ex.nextTid := by
    rw [hsw]
    exact (foldl_remove_preserve _ _).2.2.1
  have hreg : (staleSweep now ex g).2.threadsQueues
      = ((ex.threads.filter (fun t => !t.alive)).foldl
          removeStaleThread (ex, g)).2.threadsQueues := by
    rw [hsw]
  have hchk : (staleSweep now ex g).1.threadAliveCheck = now := by
    rw [hsw]
  refine ⟨?_, rfl, ?_, ?_, ?_⟩
  · intro p t
    exact ⟨semTryAcquire_snd _, rfl, rfl⟩
  · intro t htmem htdead
    have htL : t ∈ ex.threads.filter (fun u => !u.alive) :=
      List.mem_filter.2 ⟨htmem, by simp [htdead]⟩
    have hgone := foldl_remove_tid_gone
      (ex.threads.filter (fun u => !u.alive)) (ex, g) t htL
    have htidlt : t.tid < ex.nextTid := hfresh t htmem
    constructor
    · intro u hu
      rcases spawnPhase_threads_mem now (staleSweep now ex g).1
          (staleSweep now ex g).2 u hu with h1 | h2
      · rw [hth] at h1
        exact hgone.1 u h1
      · rw [h2]
        simp only [hnt]
        exact fun hcon => absurd hcon.symm (Nat.ne_of_lt htidlt)
    · intro hcon
      rcases spawnPhase_registry_mem now (staleSweep now ex g).1
          (staleSweep now ex g).2 t.tid hcon with h1 | h2
      · rw [hreg] at h1
        exact hgone.2 h1
      · rw [hnt] at h2
        exact absurd h2 (Nat.ne_of_lt htidlt)
  · rw [show (adjustThreadCount now ex g).1.threadAliveCheck
        = (spawnPhase now (staleSweep now ex g).1
            (staleSweep now ex g).2).1.threadAliveCheck from rfl,
      (spawnPhase_preserve _ _ _).2.2.2.2.2.1]
    exact hchk
  · intro t htmem halive
    have hne : ∀ u ∈ ex.threads.filter (fun v => !v.alive),
        t.tid ≠ u.tid := by
      intro u humem
      have hu1 := List.mem_of_mem_filter humem
      have hu2 := List.of_mem_filter humem
      have hLneq : t ≠ u := by
        intro hcon
        rw [← hcon] at hu2
        simp [halive] at hu2
      have hsymm : Symmetric (fun a b : WThread => a.tid ≠ b.tid) := by
        intro a b h
        exact h.symm
      have hforall := List.Pairwise.forall hsymm hdist
      exact hforall htmem hu1 hLneq
    have hkeep := foldl_remove_keep
      (ex.threads.filter (fun v => !v.alive)) (ex, g) t htmem hne
    rw [← hth] at hkeep
    exact spawnPhase_threads_keep now (staleSweep now ex g).1
      (staleSweep now ex g).2 t hkeep

theorem C10_stale_sweep_witness :
    (adjustThreadCount 40
        ⟨2, 300, [], 0, [⟨0, 10, false⟩, ⟨1, 10, true⟩], none, false, 0, 2⟩
        ⟨false, [0, 1]⟩).1.threadAliveCheck = 40
  ∧ (0 : Nat) ∉ (adjustThreadCount 40
        ⟨2, 300, [], 0, [⟨0, 10, false⟩, ⟨1, 10, true⟩], none, false, 0, 2⟩
        ⟨false, [0, 1]⟩).2.threadsQueues
  ∧ (⟨1, 10, true⟩ : WThread) ∈ (adjustThreadCount 40
        ⟨2, 300, [], 0, [⟨0, 10, false⟩, ⟨1, 10, true⟩], none, false, 0, 2⟩
        ⟨false, [0, 1]⟩).1.threads :=
  ⟨(C10_stale_sweep 40
      ⟨2, 300, [], 0, [⟨0, 10, false⟩, ⟨1, 10, true⟩], none, false, 0, 2⟩
      ⟨false, [0, 1]⟩ (by decide) (by decide) (by decide)).2.2.2.1,
   ((C10_stale_sweep 40
      ⟨2, 300, [], 0, [⟨0, 10, false⟩, ⟨1, 10, true⟩], none, false, 0, 2⟩
      ⟨false, [0, 1]⟩ (by decide) (by decide) (by decide)).2.2.1
      ⟨0, 10, false⟩ (by decide) rfl).2,
   (C10_stale_sweep 40
      ⟨2, 300, [], 0, [⟨0, 10, false⟩, ⟨1, 10, true⟩], none, false, 0, 2⟩
      ⟨false, [0, 1]⟩ (by decide) (by decide) (by decide)).2.2.2.2
      ⟨1, 10, true⟩ (by decide) rfl⟩

/-! ## Lemmas about the composite spawn heuristic and submit -/

theorem adjust_eq (now : Nat) (ex : Executor) (g : GlobalState) :
    adjustThreadCount now ex g
      = spawnPhase now (staleSweep now ex g).1 (staleSweep now ex g).2 := rfl

theorem staleSweep_preserve (now : Nat) (ex : Executor) (g : GlobalState) :
    (staleSweep now ex g).1.maxWorkers = ex.maxWorkers
  ∧ (staleSweep now ex g).1.maxTtl = ex.maxTtl
  ∧ (staleSweep now ex g).1.nextTid = ex.nextTid
  ∧ (staleSweep now ex g).1.workQueue = ex.workQueue
  ∧ (staleSweep now ex g).1.broken = ex.broken
  ∧ (staleSweep now ex g).1.shutdown = ex.shutdown
  ∧ (staleSweep now ex g).2.shuttingDown = g.shuttingDown
  ∧ (staleSweep now ex g).1.threads.length ≤ ex.threads.length
  ∧ (∀ t ∈ (staleSweep now ex g).1.threads, t ∈ ex.threads) := by
  simp only [staleSweep]
  split
  · exact ⟨(foldl_remove_preserve _ _).1, (foldl_remove_preserve _ _).2.1,
      (foldl_remove_preserve _ _).2.2.1, (foldl_remove_preserve _ _).2.2.2.1,
      (foldl_remove_preserve _ _).2.2.2.2.1,
      (foldl_remove_preserve _ _).2.2.2.2.2.1,
      (foldl_remove_preserve _ _).2.2.2.2.2.2.2,
      foldl_remove_length_le _ _, foldl_remove_threads_subset _ _⟩
  · exact ⟨rfl, rfl, rfl, rfl, rfl, rfl, rfl, le_refl _, fun t ht => ht⟩

theorem adjust_maxWorkers (now : Nat) (ex : Executor) (g : GlobalState) :
    (adjustThreadCount now ex g).1.maxWorkers = ex.maxWorkers := by
  rw [adjust_eq, (spawnPhase_preserve _ _ _).1,
    (staleSweep_preserve now ex g).1]

theorem adjust_bound (now : Nat) (ex : Executor) (g : GlobalState)
    (hb : ex.threads.length ≤ ex.maxWorkers) :
    (adjustThreadCount now ex g).1.threads.length ≤ ex.maxWorkers := by
  have h1 := (staleSweep_preserve now ex g).1
  have h2 := (staleSweep_preserve now ex g).2.2.2.2.2.2.2.1
  have h3 := (spawnPhase_length now (staleSweep now ex g).1
    (staleSweep now ex g).2).1
  rw [h1] at h3
  rw [adjust_eq]
  exact h3 (le_trans h2 hb)

theorem adjust_threads_mem (now : Nat) (ex : Executor) (g : GlobalState) :
    ∀ t ∈ (adjustThreadCount now ex g).1.threads,
      t ∈ ex.threads ∨ t.expiration = now + ex.maxTtl := by
  intro t ht
  rw [adjust_eq] at ht
  rcases spawnPhase_threads_mem now (staleSweep now ex g).1
      (staleSweep now ex g).2 t ht with h1 | h2
  · exact Or.inl ((staleSweep_preserve now ex g).2.2.2.2.2.2.2.2 t h1)
  · right
    rw [h2]
    exact congrArg (fun m => now + m) (staleSweep_preserve now ex g).2.1

theorem submit_ok_shape (now : Nat) (task : Except FError Int)
    (ex : Executor) (g : GlobalState)
    (r : FutureState × Executor × GlobalState)
    (hr : submit now task ex g = .ok r) :
    r.1 = FutureState.pending
  ∧ r.2 = adjustThreadCount now
      { ex with workQueue :=
          ex.workQueue ++ [some ⟨FutureState.pending, task⟩] } g := by
  unfold submit at hr
  split at hr
  · simp at hr
  · split at hr
    · simp at hr
    · split at hr
      · simp at hr
      · simp only [Except.ok.injEq] at hr
        rw [← hr]
        exact ⟨rfl, rfl⟩

theorem submit_bound (now : Nat) (task : Except FError Int) (ex : Executor)
    (g : GlobalState) (hb : ex.threads.length ≤ ex.maxWorkers)
    (r : FutureState × Executor × GlobalState)
    (hr : submit now task ex g = .ok r) :
    r.2.1.threads.length ≤ ex.maxWorkers
  ∧ r.2.1.maxWorkers = ex.maxWorkers := by
  have hs := (submit_ok_shape now task ex g r hr).2
  have h1 : r.2.1 = (adjustThreadCount now
      { ex with workQueue :=
          ex.workQueue ++ [some ⟨FutureState.pending, task⟩] } g).1 := by
    rw [hs]
  rw [h1]
  exact ⟨adjust_bound now _ g hb, adjust_maxWorkers now _ g⟩

theorem submitStep_inv (p : Executor × GlobalState)
    (e : Nat × Except FError Int)
    (hp : p.1.threads.length ≤ p.1.maxWorkers) :
    (submitStep p e).1.threads.length ≤ (submitStep p e).1.maxWorkers
  ∧ (submitStep p e).1.maxWorkers = p.1.maxWorkers := by
  unfold submitStep
  split
  · next r hr =>
    have hb := submit_bound e.1 e.2 p.1 p.2 hp r hr
    exact ⟨le_of_le_of_eq hb.1 hb.2.symm, hb.2⟩
  · exact ⟨hp, rfl⟩

theorem runSubmits_inv (evts : List (Nat × Except FError Int))
    (p : Executor × GlobalState)
    (hp : p.1.threads.length ≤ p.1.maxWorkers) :
    (evts.foldl submitStep p).1.threads.length
      ≤ (evts.foldl submitStep p).1.maxWorkers
  ∧ (evts.foldl submitStep p).1.maxWorkers = p.1.maxWorkers := by
  induction evts generalizing p with
  | nil => exact ⟨hp, rfl⟩
  | cons e evts ih =>
    have hstep := submitStep_inv p e hp
    have hrec := ih (submitStep p e) hstep.1
    exact ⟨hrec.1, hrec.2.trans hstep.2⟩

/-- C4: for every sequence of submissions against a pool, the size of the
live-worker set never exceeds `maxWorkers` (which submissions never change),
and the spawn heuristic adds a worker only when the current worker count is
strictly below `maxWorkers`: at or above capacity it never grows the set. -/
theorem C4_worker_bound (evts : List (Nat × Except FError Int))
    (ex : Executor) (g : GlobalState)
    (hb : ex.threads.length ≤ ex.maxWorkers) :
    (runSubmits evts ex g).1.threads.length
        ≤ (runSubmits evts ex g).1.maxWorkers
  ∧ (runSubmits evts ex g).1.maxWorkers = ex.maxWorkers
  ∧ (∀ now2 e2 h2, e2.maxWorkers ≤ e2.threads.length →
      (adjustThreadCount now2 e2 h2 : Executor × GlobalState).1.threads.length
        ≤ e2.threads.length) := by
  refine ⟨(runSubmits_inv evts (ex, g) hb).1,
    (runSubmits_inv evts (ex, g) hb).2, ?_⟩
  intro now2 e2 h2 hge
  have hsw := staleSweep_preserve now2 e2 h2
  have hsl := hsw.2.2.2.2.2.2.2.1
  have hsp := spawnPhase_length now2 (staleSweep now2 e2 h2).1
    (staleSweep now2 e2 h2).2
  rw [adjust_eq]
  by_cases hc : (staleSweep now2 e2 h2).1.threads.length
      < (staleSweep now2 e2 h2).1.maxWorkers
  · calc (spawnPhase now2 (staleSweep now2 e2 h2).1
          (staleSweep now2 e2 h2).2).1.threads.length
        ≤ (staleSweep now2 e2 h2).1.maxWorkers := hsp.1 (le_of_lt hc)
      _ = e2.maxWorkers := hsw.1
      _ ≤ e2.threads.length := hge
  · calc (spawnPhase now2 (staleSweep now2 e2 h2).1
          (staleSweep now2 e2 h2).2).1.threads.length
        = (staleSweep now2 e2 h2).1.threads.length :=
          hsp.2 (Nat.not_lt.1 hc)
      _ ≤ e2.threads.length := hsl

theorem C4_worker_bound_witness :
    (runSubmits [(0, Except.ok 1), (5, Except.ok 2), (9, Except.ok 3)]
        ⟨1, 300, [], 0, [], none, false, 0, 0⟩ ⟨false, []⟩).1.threads.length
      ≤ (runSubmits [(0, Except.ok 1), (5, Except.ok 2), (9, Except.ok 3)]
        ⟨1, 300, [], 0, [], none, false, 0, 0⟩ ⟨false, []⟩).1.maxWorkers :=
  (C4_worker_bound [(0, Except.ok 1), (5, Except.ok 2), (9, Except.ok 3)]
    ⟨1, 300, [], 0, [], none, false, 0, 0⟩ ⟨false, []⟩ (by decide)).1

/-! ## Lemmas about the worker loop -/

theorem workerStep_threads_subset (tid exp now : Nat) (reachable : Bool)
    (ex : Executor) (g : GlobalState) :
    ∀ t ∈ (workerStep tid exp now reachable ex g).2.1.threads,
      t ∈ ex.threads := by
  intro t ht
  simp only [workerStep] at ht
  split at ht
  · split at ht
    · split at ht
      · exact List.mem_of_mem_filter ht
      · exact ht
    · exact ht
  · split at ht
    · split at ht
      · exact List.mem_of_mem_filter ht
      · exact ht
    · exact ht
  · split at ht
    · split at ht
      · exact ht
      · exact ht
    · exact ht

theorem workerStep_empty_exit (tid exp now : Nat) (reachable : Bool)
    (ex : Executor) (g : GlobalState) (hq : ex.workQueue = []) :
    ((workerStep tid exp now reachable ex g).1 = .exited ↔ exp ≤ now) := by
  obtain ⟨mw, ttl, q, sem, ths, br, sd, chk, nt⟩ := ex
  simp only at hq
  subst hq
  by_cases hle : exp ≤ now
  · cases reachable <;> simp [workerStep, hle]
  · cases reachable <;> simp [workerStep, hle]

theorem workerStep_item_exit (tid exp now : Nat) (ex : Executor)
    (g : GlobalState) (w : WorkItem) (rest : List (Option WorkItem))
    (hq : ex.workQueue = some w :: rest) :
    ((workerStep tid exp now true ex g).1 = .exited ↔ exp ≤ now) := by
  obtain ⟨mw, ttl, q, sem, ths, br, sd, chk, nt⟩ := ex
  simp only at hq
  subst hq
  by_cases hle : exp ≤ now
  · simp [workerStep, hle]
  · simp [workerStep, hle]

/-- C5: a worker's expiration deadline is computed exactly once, at spawn
time, as spawn time plus the pool's TTL, and no later activity renews it:
the spawn heuristic is the only operation that introduces a thread, and it
stamps it with `now + ttl`; submit introduces threads only through the spawn
heuristic; worker steps never add a thread nor change a thread record;
shutdown joining preserves every thread's identity and expiration; and both
the idle-timeout check and the post-execution check decide retirement by
comparing the current time against exactly that spawn-fixed deadline. -/
theorem C5_expiration_fixed (now tid exp : Nat) (reachable wait : Bool)
    (ex : Executor) (g : GlobalState) :
    (∀ t ∈ (adjustThreadCount now ex g).1.threads,
        t ∈ ex.threads ∨ t.expiration = now + ex.maxTtl)
  ∧ (∀ task r, submit now task ex g = .ok r →
        ∀ t ∈ r.2.1.threads,
          t ∈ ex.threads ∨ t.expiration = now + ex.maxTtl)
  ∧ (∀ t ∈ (workerStep tid exp now reachable ex g).2.1.threads,
        t ∈ ex.threads)
  ∧ (∀ t ∈ (shutdownExec wait ex).threads,
        ∃ u ∈ ex.threads, t.tid = u.tid ∧ t.expiration = u.expiration)
  ∧ (ex.workQueue = [] →
        ((workerStep tid exp now reachable ex g).1 = .exited ↔ exp ≤ now))
  ∧ (∀ w rest, ex.workQueue = some w :: rest →
        ((workerStep tid exp now true ex g).1 = .exited ↔ exp ≤ now)) := by
  refine ⟨adjust_threads_mem now ex g, ?_, ?_, ?_, ?_, ?_⟩
  · intro task r hr t ht
    have hs := (submit_ok_shape now task ex g r hr).2
    rw [hs] at ht
    exact adjust_threads_mem now
      { ex with workQueue :=
          ex.workQueue ++ [some ⟨FutureState.pending, task⟩] } g t ht
  · exact workerStep_threads_subset tid exp now reachable ex g
  · intro t ht
    simp only [shutdownExec] at ht
    split at ht
    · rcases List.mem_map.1 ht with ⟨u, hu, hmap⟩
      refine ⟨u, hu, ?_, ?_⟩
      · rw [← hmap]
      · rw [← hmap]
    · exact ⟨t, ht, rfl, rfl⟩
  · intro hq
    exact workerStep_empty_exit tid exp now reachable ex g hq
  · intro w rest hq
    exact workerStep_item_exit tid exp now ex g w rest hq

theorem C5_expiration_fixed_witness :
    ((⟨7, 100 + 300, true⟩ : WThread)
        ∈ (⟨3, 300, [], 0, [⟨2, 80, true⟩], none, false, 100, 7⟩
            : Executor).threads
      ∨ (⟨7, 100 + 300, true⟩ : WThread).expiration = 100 + 300)
  ∧ ((workerStep 2 80 100 true
        ⟨3, 300, [], 0, [⟨2, 80, true⟩], none, false, 100, 7⟩
        ⟨false, [2]⟩).1 = StepOutcome.exited ↔ (80 : Nat) ≤ 100) :=
  ⟨(C5_expiration_fixed 100 2 80 true true
      ⟨3, 300, [], 0, [⟨2, 80, true⟩], none, false, 100, 7⟩ ⟨false, [2]⟩).1
      ⟨7, 100 + 300, true⟩ (by decide),
   (C5_expiration_fixed 100 2 80 true true
      ⟨3, 300, [], 0, [⟨2, 80, true⟩], none, false, 100, 7⟩
      ⟨false, [2]⟩).2.2.2.2.1 rfl⟩

/-! ## Lemmas about the initializer-failure drain -/

theorem drainFail_all_pending (q : List (Option WorkItem)) :
    allPendingQueue q = true →
    ∀ acc, drainFail q acc
      = ([], acc ++ List.replicate ((q.filter Option.isSome).length)
          (FutureState.finishedErr (FError.brokenThreadPool brokenMsg)),
         true) := by
  induction q with
  | nil =>
    intro _ acc
    simp [drainFail]
  | cons o rest ih =>
    cases o with
    | none =>
      intro hq acc
      have hq2 : allPendingQueue rest = true := hq
      rw [show drainFail (none :: rest) acc = drainFail rest acc from rfl,
        ih hq2 acc]
      simp
    | some wi =>
      intro hq acc
      cases hfu : wi.future with
      | pending =>
        have hq2 : allPendingQueue rest = true := by
          simpa [allPendingQueue, hfu] using hq
        have hstep : drainFail (some wi :: rest) acc
            = drainFail rest (acc ++ [FutureState.finishedErr
                (FError.brokenThreadPool brokenMsg)]) := by
          simp [drainFail, hfu, setException]
        rw [hstep, ih hq2]
        simp [List.filter_cons, List.replicate_succ]
      | running => simp [allPendingQueue, hfu] at hq
      | cancelled => simp [allPendingQueue, hfu] at hq
      | cancelledNotified => simp [allPendingQueue, hfu] at hq
      | finishedOk v => simp [allPendingQueue, hfu] at hq
      | finishedErr e => simp [allPendingQueue, hfu] at hq

/-- C8: when the per-worker initializer faults (with the executor still
reachable, its normal queue contents pending), the worker never enters the
poll loop; the executor's broken flag is set to the reason string, the work
queue is drained completely, every already-enqueued work item's future is
settled as failed with `BrokenThreadPool`, every subsequent submit fails
with `BrokenThreadPool`, and the faulting worker is never removed from the
live-worker set. -/
theorem C8_init_failure (ex : Executor)
    (hpend : allPendingQueue ex.workQueue = true) :
    (workerInitPhase true true ex).2.2 = false
  ∧ (workerInitPhase true true ex).1.broken = some brokenMsg
  ∧ (workerInitPhase true true ex).1.workQueue = []
  ∧ (workerInitPhase true true ex).2.1.length
      = (ex.workQueue.filter Option.isSome).length
  ∧ (∀ f ∈ (workerInitPhase true true ex).2.1,
      f = FutureState.finishedErr (FError.brokenThreadPool brokenMsg))
  ∧ (workerInitPhase true true ex).1.threads = ex.threads
  ∧ (∀ now2 task g2, submit now2 task (workerInitPhase true true ex).1 g2
      = .error (.brokenPool brokenMsg)) := by
  have hdr := drainFail_all_pending ex.workQueue hpend []
  refine ⟨rfl, rfl, ?_, ?_, ?_, rfl, ?_⟩
  · rw [show (workerInitPhase true true ex).1.workQueue
        = (drainFail ex.workQueue []).1 from rfl, hdr]
  · rw [show (workerInitPhase true true ex).2.1
        = (drainFail ex.workQueue []).2.1 from rfl, hdr]
    simp
  · intro f hf
    rw [show (workerInitPhase true true ex).2.1
        = (drainFail ex.workQueue []).2.1 from rfl, hdr] at hf
    simp only [List.nil_append] at hf
    exact (List.eq_of_mem_replicate hf)
  · intro now2 task g2
    rfl

theorem C8_init_failure_witness :
    (workerInitPhase true true
        ⟨1, 300, [some ⟨FutureState.pending, Except.ok 3⟩], 0,
          [⟨0, 10, true⟩], none, false, 0, 1⟩).1.broken = some brokenMsg
  ∧ (workerInitPhase true true
        ⟨1, 300, [some ⟨FutureState.pending, Except.ok 3⟩], 0,
          [⟨0, 10, true⟩], none, false, 0, 1⟩).1.workQueue = []
  ∧ (workerInitPhase true true
        ⟨1, 300, [some ⟨FutureState.pending, Except.ok 3⟩], 0,
          [⟨0, 10, true⟩], none, false, 0, 1⟩).1.threads = [⟨0, 10, true⟩]
  ∧ submit 4 (Except.ok 1)
      (workerInitPhase true true
        ⟨1, 300, [some ⟨FutureState.pending, Except.ok 3⟩], 0,
          [⟨0, 10, true⟩], none, false, 0, 1⟩).1 ⟨false, []⟩
      = .error (.brokenPool brokenMsg) :=
  ⟨(C8_init_failure
      ⟨1, 300, [some ⟨FutureState.pending, Except.ok 3⟩], 0,
        [⟨0, 10, true⟩], none, false, 0, 1⟩ (by decide)).2.1,
   (C8_init_failure
      ⟨1, 300, [some ⟨FutureState.pending, Except.ok 3⟩], 0,
        [⟨0, 10, true⟩], none, false, 0, 1⟩ (by decide)).2.2.1,
   (C8_init_failure
      ⟨1, 300, [some ⟨FutureState.pending, Except.ok 3⟩], 0,
        [⟨0, 10, true⟩], none, false, 0, 1⟩ (by decide)).2.2.2.2.2.1,
   (C8_init_failure
      ⟨1, 300, [some ⟨FutureState.pending, Except.ok 3⟩], 0,
        [⟨0, 10, true⟩], none, false, 0, 1⟩ (by decide)).2.2.2.2.2.2
      4 (Except.ok 1) ⟨false, []⟩⟩

end TTPE
